import Mathlib

/-!
Verification development for the kubb code-generation engine.

The definitions below are a shallow embedding of
`packages/plugin-zod/src/parser.ts` (the zod schema parser: the keyword
mapper `zodKeywordMapper`, the sibling-ordering function `sort`, and the
recursive `parse` function) and of `packages/plugin-angular/src/plugin.ts`
(the `resolvePath` member of the angular plugin).

Helpers that live in packages not included in the sources
(`@kubb/core/transformers`, `@kubb/plugin-oas`, `@kubb/core`'s
`FileManager.getMode`, and node's `path.resolve`) are modelled from their
documented behaviour; each such definition carries a doc comment saying so.
-/

namespace Kubb

/-- Closed set of schema keywords, as enumerated by `schemaKeywords` of
`@kubb/plugin-oas` and consumed by `zodKeywordMapper` in
`packages/plugin-zod/src/parser.ts`. -/
inductive Keyword where
  | string
  | number
  | integer
  | boolean
  | any
  | unknown
  | void
  | undefined
  | null
  | nullable
  | nullish
  | optional
  | blob
  | firstName
  | lastName
  | password
  | phone
  | readOnly
  | writeOnly
  | deprecated
  | example
  | schema
  | name
  | min
  | max
  | default
  | describe
  | matches
  | catchall
  | datetime
  | date
  | time
  | uuid
  | url
  | email
  | const
  | enum
  | ref
  | union
  | and
  | array
  | tuple
  | object
deriving DecidableEq, Repr

/-- Literal type tag of one enum/const member
(`format: 'string' | 'number' | 'boolean'`). -/
inductive ValueFormat where
  | string
  | number
  | boolean
deriving DecidableEq, Repr

/-- A JavaScript literal value carried by enum/const schema nodes. -/
inductive JSValue where
  | str (s : String)
  | num (n : Int)
  | bool (b : Bool)
deriving DecidableEq, Repr

/-- One member of an enum node (`{ format, value }`), also the argument of a
const node. -/
structure EnumItem where
  format : ValueFormat
  value : JSValue
deriving DecidableEq, Repr

/-- Argument of a `default` schema node
(`string | number | true | object` in the source). -/
inductive DefaultValue where
  | str (s : String)
  | num (n : Int)
  | boolTrue
  | obj
deriving DecidableEq, Repr

/-- Type tag for `date`/`time` schema nodes (`'date' | 'string'`). -/
inductive DateType where
  | date
  | string
deriving DecidableEq, Repr

/-- A schema node: one keyword together with its keyword-specific arguments,
mirroring the `Schema` union of `@kubb/plugin-oas` as consumed by the parser
in `packages/plugin-zod/src/parser.ts`. -/
inductive Schema where
  | string
  | number
  | integer
  | boolean
  | any
  | unknown
  | void
  | undefined
  | null
  | nullable
  | nullish
  | optional
  | blob
  | firstName
  | lastName
  | password
  | phone
  | readOnly
  | writeOnly
  | deprecated
  | example
  | schema
  | name (args : String)
  | min (args : Int)
  | max (args : Int)
  | default (args : DefaultValue)
  | describe (args : String)
  | matches (args : String)
  | catchall (args : String)
  | datetime (offset : Bool) (isLocal : Bool)
  | date (type : DateType)
  | time (type : DateType)
  | uuid
  | url
  | email
  | const (args : EnumItem)
  | enum (asConst : Bool) (items : List EnumItem)
  | ref (refName : Option String)
  | union (args : List Schema)
  | and (args : List Schema)
  | array (items : List Schema) (minItems : Option Int) (maxItems : Option Int) (unique : Bool)
  | tuple (items : List Schema)
  | object (properties : List (String × List Schema)) (additionalProperties : List Schema)
      (strict : Option Bool)

/-- The keyword tag of a schema node (`schema.keyword` in the source). -/
def Schema.keyword : Schema → Keyword
  | .string => .string
  | .number => .number
  | .integer => .integer
  | .boolean => .boolean
  | .any => .any
  | .unknown => .unknown
  | .void => .void
  | .undefined => .undefined
  | .null => .null
  | .nullable => .nullable
  | .nullish => .nullish
  | .optional => .optional
  | .blob => .blob
  | .firstName => .firstName
  | .lastName => .lastName
  | .password => .password
  | .phone => .phone
  | .readOnly => .readOnly
  | .writeOnly => .writeOnly
  | .deprecated => .deprecated
  | .example => .example
  | .schema => .schema
  | .name _ => .name
  | .min _ => .min
  | .max _ => .max
  | .default _ => .default
  | .describe _ => .describe
  | .matches _ => .matches
  | .catchall _ => .catchall
  | .datetime _ _ => .datetime
  | .date _ => .date
  | .time _ => .time
  | .uuid => .uuid
  | .url => .url
  | .email => .email
  | .const _ => .const
  | .enum _ _ => .enum
  | .ref _ => .ref
  | .union _ => .union
  | .and _ => .and
  | .array _ _ _ _ => .array
  | .tuple _ => .tuple
  | .object _ _ _ => .object

/-- JavaScript `Array.prototype.indexOf`: index of the first occurrence,
`-1` when absent. -/
def jsIndexOf : List Keyword → Keyword → Int
  | [], _ => -1
  | x :: xs, k =>
    if x = k then 0
    else
      let r := jsIndexOf xs k
      if r = -1 then -1 else r + 1

/-- Modelled from the spec: `transformers.orderBy` of `@kubb/core/transformers`
(not included in the sources) sorts ascending by the given rank; it is a
stable sort, so equally ranked items keep their source-document order.  The
output of a stable sort under a total preorder is unique, so any stable
implementation (here: insertion sort) is extensionally the same function. -/
def orderBy (items : List Schema) (rank : Schema → Int) : List Schema :=
  items.insertionSort (fun a b => rank a ≤ rank b)

/-- The fixed keyword order used by `sort`
(`packages/plugin-zod/src/parser.ts`, lines 167-191). -/
def order : List Keyword :=
  [.string, .datetime, .date, .time, .tuple, .number, .object, .enum, .url, .email,
   .firstName, .lastName, .password, .matches, .uuid, .null,
   .min, .max, .default, .describe, .optional, .nullable, .nullish]

/-- `sort` of `packages/plugin-zod/src/parser.ts`: orders sibling schema nodes
ascending by the index of their keyword in `order` (keywords absent from
`order` rank `-1` and therefore come first).  The source additionally maps an
`undefined` input to `[]`; callers always pass an array. -/
def sort (items : List Schema) : List Schema :=
  orderBy items (fun v => jsIndexOf order v.keyword)

/-- The coarse modifier class of a keyword, named directly after the spec's
canonical sibling ordering: primary/format keywords are class 0, bound
constraints (`min`/`max`) class 1, `default`/`describe` class 2, and
`optional`/`nullable`/`nullish` class 3. -/
def modifierClass : Keyword → Nat
  | .optional | .nullable | .nullish => 3
  | .default | .describe => 2
  | .min | .max => 1
  | _ => 0

/-- Class determined by a rank in `order`: positions 16 and 17 are the bound
constraints, 18 and 19 are default/describe, 20 and up are the
optional/nullable/nullish tail, and everything below (including the rank `-1`
of unlisted keywords) is a primary/format position. -/
def rankClass (i : Int) : Nat :=
  if 20 ≤ i then 3 else if 18 ≤ i then 2 else if 16 ≤ i then 1 else 0

theorem modifierClass_eq_rankClass (k : Keyword) :
    modifierClass k = rankClass (jsIndexOf order k) := by
  cases k <;> decide

theorem rankClass_mono {i j : Int} (h : i ≤ j) : rankClass i ≤ rankClass j := by
  unfold rankClass
  split_ifs <;> omega

/-- The zod target version (`'3' | '4'` in the source). -/
inductive Version where
  | v3
  | v4
deriving DecidableEq, Repr

/-- The `coercion` parser option
(`boolean | \x7b dates?, strings?, numbers? \x7d`). -/
inductive Coercion where
  | bool (b : Bool)
  | obj (dates strings numbers : Option Bool)
deriving DecidableEq, Repr

/-- The three coercion targets accepted by `shouldCoerce`. -/
inductive CoercionTarget where
  | dates
  | strings
  | numbers
deriving DecidableEq, Repr

/-- `shouldCoerce` of `packages/plugin-zod/src/parser.ts` (lines 200-209). -/
def shouldCoerce (c : Option Coercion) (t : CoercionTarget) : Bool :=
  match c with
  | none => false
  | some (.bool b) => b
  | some (.obj dates strings numbers) =>
    match t with
    | .dates => dates.getD false
    | .strings => strings.getD false
    | .numbers => numbers.getD false

/-- `ParserOptions` of `packages/plugin-zod/src/parser.ts`.  The source's
`rawSchema` (an opaque OAS object consumed only as the second argument of
`wrapOutput`) is not modelled; `wrapOutput` is modelled as acting on the
produced output string alone. -/
structure ParserOptions where
  name : String
  typeName : Option String := none
  description : Option String := none
  keysToOmit : Option (List String) := none
  mapper : List (String × String) := []
  coercion : Option Coercion := none
  wrapOutput : Option (String → Option String) := none
  version : Version

/-- Modelled from the spec: `transformers.stringify` of
`@kubb/core/transformers` (not among the sources) serializes one literal
member value — strings are quoted, numbers and booleans print canonically
("serialized member values" in the spec's enumeration rule). -/
def stringifyValue : JSValue → String
  | .str s => "\"" ++ s ++ "\""
  | .num n => toString n
  | .bool b => if b then "true" else "false"

/-- JavaScript template interpolation of a literal value. -/
def jsTemplate : JSValue → String
  | .str s => s
  | .num n => toString n
  | .bool b => if b then "true" else "false"

/-- JavaScript `Number(value)` rendered back through template interpolation,
modelled for values that already denote numbers in canonical decimal form. -/
def jsNumber : JSValue → String
  | .num n => toString n
  | .str s => s
  | .bool b => if b then "1" else "0"

/-- Modelled from the spec: `transformers.toRegExpString` of
`@kubb/core/transformers` (not among the sources) renders a pattern as a
regular-expression literal. -/
def toRegExpString (s : String) : String :=
  "/" ++ s ++ "/"

/-- JavaScript truthiness of a `default` argument. -/
def DefaultValue.truthy : DefaultValue → Bool
  | .str s => !(s == "")
  | .num n => !(n == 0)
  | .boolTrue => true
  | .obj => true

/-- JavaScript `.filter(Boolean)` over parser outputs: drops `undefined` and
the empty string. -/
def jsFilterTruthy (items : List (Option String)) : List String :=
  items.filterMap fun o =>
    match o with
    | some s => if s = "" then none else some s
    | none => none

/-- Whether `zodKeywordMapper` maps a keyword to a defined handler; the
keywords mapped to `undefined` in the source (lines 141-159) are the
unmapped ones. -/
def mapperDefined : Keyword → Bool
  | .firstName | .lastName | .password | .phone | .readOnly | .writeOnly
  | .deprecated | .example | .schema | .name => false
  | _ => true

/-- Optional `.min(n)` suffix built by the number/string/array mappers. -/
def minSuffix : Option Int → String
  | some n => ".min(" ++ toString n ++ ")"
  | none => ""

/-- Optional `.max(n)` suffix built by the number/string/array mappers. -/
def maxSuffix : Option Int → String
  | some n => ".max(" ++ toString n ++ ")"
  | none => ""

def zodKeywordMapper.any : String := "z.any()"

def zodKeywordMapper.unknown : String := "z.unknown()"

def zodKeywordMapper.void : String := "z.void()"

def zodKeywordMapper.number (coercion : Bool) (min max : Option Int) : String :=
  (if coercion then "z.coerce.number()" else "z.number()") ++ minSuffix min ++ maxSuffix max

def zodKeywordMapper.integer (coercion : Bool) (min max : Option Int) (version : Version) :
    String :=
  (if coercion then "z.coerce.number().int()"
   else if version = .v4 then "z.int()" else "z.number().int()")
    ++ minSuffix min ++ maxSuffix max

def zodKeywordMapper.object (value : String) (strict : Option Bool) (version : Version) :
    String :=
  if version = .v4 ∧ strict = some true then
    "z.strictObject(\x7b\n    " ++ value ++ "\n    \x7d)"
  else if strict = some true then
    "z.object(\x7b\n    " ++ value ++ "\n    \x7d).strict()"
  else
    "z.object(\x7b\n    " ++ value ++ "\n    \x7d)"

def zodKeywordMapper.string (coercion : Bool) (min max : Option Int) : String :=
  (if coercion then "z.coerce.string()" else "z.string()") ++ minSuffix min ++ maxSuffix max

def zodKeywordMapper.boolean : String := "z.boolean()"

def zodKeywordMapper.undefined : String := "z.undefined()"

def zodKeywordMapper.nullable : String := ".nullable()"

def zodKeywordMapper.null : String := "z.null()"

def zodKeywordMapper.nullish : String := ".nullish()"

def zodKeywordMapper.array (items : List String) (min max : Option Int) (unique : Bool) :
    String :=
  "z.array(" ++ String.join items ++ ")" ++ minSuffix min ++ maxSuffix max
    ++ (if unique then
          ".refine(items => new Set(items).size === items.length, \x7b message: \"Array entries must be unique\" \x7d)"
        else "")

def zodKeywordMapper.tuple (items : List String) : String :=
  "z.tuple([" ++ String.intercalate ", " items ++ "])"

def zodKeywordMapper.enum (items : List String) : String :=
  "z.enum([" ++ String.intercalate ", " items ++ "])"

def zodKeywordMapper.union (items : List String) : String :=
  "z.union([" ++ String.intercalate ", " items ++ "])"

def zodKeywordMapper.const (value : String) : String :=
  "z.literal(" ++ value ++ ")"

def zodKeywordMapper.datetime (offset isLocal : Bool) (version : Version) : String :=
  if offset then
    (if version = .v4 then "z.iso.datetime(\x7b offset: true \x7d)"
     else "z.string().datetime(\x7b offset: true \x7d)")
  else if isLocal then
    (if version = .v4 then "z.iso.datetime(\x7b local: true \x7d)"
     else "z.string().datetime(\x7b local: true \x7d)")
  else "z.string().datetime()"

def zodKeywordMapper.date (type : DateType) (coercion : Bool) (version : Version) : String :=
  if type = .string then
    (if version = .v4 then "z.iso.date()" else "z.string().date()")
  else if coercion then "z.coerce.date()"
  else "z.date()"

def zodKeywordMapper.time (type : DateType) (coercion : Bool) (version : Version) : String :=
  if type = .string then
    (if version = .v4 then "z.iso.time()" else "z.string().time()")
  else if coercion then "z.coerce.date()"
  else "z.date()"

def zodKeywordMapper.uuid (coercion : Bool) (version : Version) : String :=
  if version = .v4 then
    (if coercion then "z.coerce.string().uuid()" else "z.uuid()")
  else if coercion then "z.coerce.string().uuid()"
  else "z.string().uuid()"

def zodKeywordMapper.url (coercion : Bool) (version : Version) : String :=
  if version = .v4 then
    (if coercion then "z.coerce.string().url()" else "z.url()")
  else if coercion then "z.coerce.string().url()"
  else "z.string().url()"

def zodKeywordMapper.default (value : DefaultValue) : String :=
  match value with
  | .obj => ".default(\x7b\x7d)"
  | .str s => ".default(" ++ s ++ ")"
  | .num n => ".default(" ++ toString n ++ ")"
  | .boolTrue => ".default(true)"

def zodKeywordMapper.and (items : List String) : String :=
  String.join (items.map fun item => ".and(" ++ item ++ ")")

def zodKeywordMapper.describe (value : String) : String :=
  ".describe(" ++ value ++ ")"

def zodKeywordMapper.min (value : Option Int) : String :=
  ".min(" ++ (match value with | some n => toString n | none => "") ++ ")"

def zodKeywordMapper.max (value : Option Int) : String :=
  ".max(" ++ (match value with | some n => toString n | none => "") ++ ")"

def zodKeywordMapper.optional : String := ".optional()"

def zodKeywordMapper.matches (value : String) (coercion : Bool) : String :=
  if coercion then "z.coerce.string().regex(" ++ value ++ ")"
  else "z.string().regex(" ++ value ++ ")"

def zodKeywordMapper.email (coercion : Bool) (version : Version) : String :=
  if version = .v4 then
    (if coercion then "z.coerce.string().email()" else "z.email()")
  else if coercion then "z.coerce.string().email()"
  else "z.string().email()"

def zodKeywordMapper.ref (value : Option String) (version : Version) : Option String :=
  match value with
  | none => none
  | some v =>
    if v = "" then none
    else some (if version = .v4 then v else "z.lazy(() => " ++ v ++ ")")

def zodKeywordMapper.blob : String := "z.instanceof(File)"

def zodKeywordMapper.catchall (value : Option String) : Option String :=
  match value with
  | some v => if v = "" then none else some (".catchall(" ++ v ++ ")")
  | none => none

/-- Output of the `const` branch of `parse` (lines 365-374): number-formatted
constants go through `Number(...)`, boolean-formatted ones through plain
template interpolation, everything else through `stringify`. -/
def constOutput (item : EnumItem) : String :=
  match item.format with
  | .number => zodKeywordMapper.const (jsNumber item.value)
  | .boolean => zodKeywordMapper.const (jsTemplate item.value)
  | .string => zodKeywordMapper.const (stringifyValue item.value)

theorem mem_sort {s : Schema} {l : List Schema} : s ∈ sort l ↔ s ∈ l := by
  unfold sort orderBy
  exact List.mem_insertionSort _

theorem sizeOf_lt_of_mem_sort {s : Schema} {l : List Schema} (h : s ∈ sort l) :
    sizeOf s < sizeOf l :=
  List.sizeOf_lt_of_mem (mem_sort.mp h)

/-- Sibling-list filter of the intersection branch of `parse` (lines 247-250):
`optional` and `describe` siblings are removed before the members are
resolved. -/
def andKept (args : List Schema) : List Schema :=
  (sort args).filter fun s => !(s.keyword == .optional || s.keyword == .describe)

theorem sizeOf_lt_of_mem_andKept {s : Schema} {l : List Schema} (h : s ∈ andKept l) :
    sizeOf s < sizeOf l :=
  sizeOf_lt_of_mem_sort (List.mem_of_mem_filter h)

/-- Combination step of the intersection branch (line 254): the first resolved
member, then one `.and(...)` application per remaining member; JavaScript
renders `items.slice(0, 1)` inside a template literal as a comma join. -/
def andCombine (items : List String) : String :=
  String.intercalate "," (items.take 1) ++ zodKeywordMapper.and (items.drop 1)

/-- `parse` of `packages/plugin-zod/src/parser.ts` (lines 223-454): resolves
one schema node of a `SchemaTree` (given as the four fields `parent`,
`current`, `name`, `siblings`) to a zod expression string, or to `undefined`
(`none`) when the keyword has no defined handler.  Branches appear in source
order; the keywords whose guarded branches can fall through to the generic
argument branch of lines 437-441 (`matches`, `default`, `describe`,
`catchall`) carry both outcomes. -/
def parse (parent : Option Schema) (current : Schema) (name : String)
    (siblings : List Schema) (options : ParserOptions) : Option String :=
  match current with
  | .union [a] => parse parent a name siblings options
  | .union [] => some ""
  | .union args =>
      some (zodKeywordMapper.union (jsFilterTruthy
        ((sort args).attach.map fun s =>
          parse (some (.union args)) s.1 name (sort args) options)))
  | .and args =>
    some (andCombine (jsFilterTruthy
      ((andKept args).attach.map fun s =>
        parse (some (.and args)) s.1 name (andKept args) options)))
  | .array items minItems maxItems unique =>
    some (zodKeywordMapper.array
      (jsFilterTruthy ((sort items).attach.map fun s =>
        parse (some (.array items minItems maxItems unique)) s.1 name (sort items) options))
      minItems maxItems unique)
  | .enum true [v] =>
      parse (some (.enum true [v])) (.const v) name [.const v] options
  | .enum true items =>
      some (zodKeywordMapper.union (jsFilterTruthy
        (items.attach.map fun v =>
          parse (some (.enum true items)) (.const v.1) name
            (items.map Schema.const) options)))
  | .enum false items =>
      some (zodKeywordMapper.enum (items.map fun item =>
        if item.format = .boolean then stringifyValue item.value
        else if item.format = .number then stringifyValue item.value
        else stringifyValue item.value))
  | .ref refName => zodKeywordMapper.ref refName options.version
  | .object props addl strict =>
    let properties := String.intercalate ",\n" (props.attach.map fun entry =>
      let nm := entry.1.1
      let schemas := entry.1.2
      let nameSchema := schemas.find? fun s => s.keyword == .name
      let mappedName :=
        match nameSchema with
        | some (.name a) => if a = "" then nm else a
        | _ => nm
      let mapped : Option String :=
        match options.mapper.find? fun m => m.1 == mappedName with
        | some m => if m.2 = "" then none else some m.2
        | none => none
      match mapped with
      | some m => "\"" ++ nm ++ "\": " ++ m
      | none =>
        let baseSchemaOutput := String.join (jsFilterTruthy
          ((sort schemas).attach.map fun s =>
            parse (some (.object props addl strict)) s.1 name schemas options))
        let objectValue :=
          match options.wrapOutput with
          | some f =>
            match f baseSchemaOutput with
            | some w => if w = "" then baseSchemaOutput else w
            | none => baseSchemaOutput
          | none => baseSchemaOutput
        if options.version == .v4 && schemas.any (fun s => s.keyword == .ref) then
          "get " ++ nm ++ "()\x7b\n                return " ++ objectValue
            ++ "\n              \x7d"
        else "\"" ++ nm ++ "\": " ++ objectValue)
    let additionalProperties : Option String :=
      if addl.length ≠ 0 then
        some (String.join (jsFilterTruthy (addl.attach.map fun s =>
          parse (some (.object props addl strict)) s.1 name addl options)))
      else none
    let catchallPart : Option String :=
      match additionalProperties with
      | some s => if s = "" then none else zodKeywordMapper.catchall (some s)
      | none => none
    some (String.join (jsFilterTruthy
      [some (zodKeywordMapper.object properties strict options.version), catchallPart]))
  | .tuple items =>
    some (zodKeywordMapper.tuple (jsFilterTruthy
      (items.attach.map fun s =>
        parse (some (.tuple items)) s.1 name items options)))
  | .const item => some (constOutput item)
  | .matches v =>
    if v ≠ "" then
      some (zodKeywordMapper.matches (toRegExpString v) (shouldCoerce options.coercion .strings))
    else
      some (zodKeywordMapper.matches v false)
  | .default v =>
    -- the guarded branch of line 383 and the generic branch of line 440 both
    -- apply the same mapper to the same argument
    some (zodKeywordMapper.default v)
  | .describe v =>
    if v ≠ "" then some (zodKeywordMapper.describe (stringifyValue (.str v)))
    else some (zodKeywordMapper.describe v)
  | .string => some (zodKeywordMapper.string (shouldCoerce options.coercion .strings) none none)
  | .uuid => some (zodKeywordMapper.uuid (shouldCoerce options.coercion .strings) options.version)
  | .email => some (zodKeywordMapper.email (shouldCoerce options.coercion .strings) options.version)
  | .url => some (zodKeywordMapper.url (shouldCoerce options.coercion .strings) options.version)
  | .number => some (zodKeywordMapper.number (shouldCoerce options.coercion .numbers) none none)
  | .integer =>
    some (zodKeywordMapper.integer (shouldCoerce options.coercion .numbers) none none
      options.version)
  | .min v => some (zodKeywordMapper.min (some v))
  | .max v => some (zodKeywordMapper.max (some v))
  | .datetime offset isLocal => some (zodKeywordMapper.datetime offset isLocal options.version)
  | .date t => some (zodKeywordMapper.date t (shouldCoerce options.coercion .dates) options.version)
  | .time t => some (zodKeywordMapper.time t (shouldCoerce options.coercion .dates) options.version)
  | .catchall v => zodKeywordMapper.catchall (some v)
  | .optional =>
    if siblings.any (fun s => s.keyword == .default) then some ""
    else some zodKeywordMapper.optional
  | .nullable => some zodKeywordMapper.nullable
  | .nullish => some zodKeywordMapper.nullish
  | .null => some zodKeywordMapper.null
  | .any => some zodKeywordMapper.any
  | .unknown => some zodKeywordMapper.unknown
  | .void => some zodKeywordMapper.void
  | .boolean => some zodKeywordMapper.boolean
  | .undefined => some zodKeywordMapper.undefined
  | .blob => some zodKeywordMapper.blob
  | .firstName | .lastName | .password | .phone | .readOnly | .writeOnly
  | .deprecated | .example | .schema => none
  | .name _ => none
termination_by sizeOf current
decreasing_by
  all_goals simp_wf
  all_goals simp +arith
  · have h1 := sizeOf_lt_of_mem_sort s.2
    omega
  · have h1 := sizeOf_lt_of_mem_andKept s.2
    omega
  · have h1 := sizeOf_lt_of_mem_sort s.2
    omega
  · have h1 := List.sizeOf_lt_of_mem v.2
    omega
  · have h1 := sizeOf_lt_of_mem_sort s.2
    have h2 := List.sizeOf_lt_of_mem entry.2
    have h3 : sizeOf entry.val = 1 + sizeOf entry.val.1 + sizeOf entry.val.2 := rfl
    have h4 : sizeOf schemas = sizeOf entry.val.2 := rfl
    omega
  · have h1 := List.sizeOf_lt_of_mem s.2
    omega
  · have h1 := List.sizeOf_lt_of_mem s.2
    omega

/-! Embedding of `packages/plugin-angular/src/plugin.ts` (`resolvePath`). -/

/-- The path mode returned by `FileManager.getMode`: one fixed output file
(`single`) or output split across files (`split`). -/
inductive PathMode where
  | single
  | split
deriving DecidableEq, Repr

/-- The group type of the angular plugin's `group` option
(`Group['type']`, `'tag' | 'path'`). -/
inductive GroupType where
  | tag
  | path
deriving DecidableEq, Repr

/-- The angular plugin's `group` option (`Group` of `@kubb/core`): a group
type plus an optional caller-supplied group-name function. -/
structure GroupConfig where
  type : GroupType
  groupName : Option (String → String) := none

/-- The per-call group key carried by `ResolvePathOptions`
(`options?.group?.path` / `options?.group?.tag`). -/
structure ResolvePathGroup where
  path : Option String := none
  tag : Option String := none

/-- The per-call options of `resolvePath` (`ResolvePathOptions` of
`@kubb/plugin-oas`). -/
structure ResolvePathOptions where
  group : Option ResolvePathGroup := none

/-- The build configuration read through `this.config`: the build root and
the configured output path (`this.config.root`,
`this.config.output.path`). -/
structure PluginConfig where
  root : String
  outputPath : String

/-- The angular plugin's own resolved options captured by the plugin closure:
`output.path` (default `'services'`) and the optional `group`. -/
structure AngularOptions where
  outputPath : String := "services"
  group : Option GroupConfig := none

/-- Whether a path segment is absolute (starts with `/`). -/
def jsIsAbsolute (p : String) : Bool :=
  match p.data with
  | '/' :: _ => true
  | _ => false

/-- One left-to-right joining step of `path.resolve`. -/
def resolveStep (acc p : String) : String :=
  if p = "" then acc
  else if jsIsAbsolute p then p
  else if acc = "" then p
  else acc ++ "/" ++ p

/-- Modelled from the spec: node's `path.resolve` (external, not repository
code) joins segments left to right with `/`, a later absolute segment
replacing everything before it, empty segments skipped.  Dot-segment
normalization and the implicit working-directory base are not modelled — the
engine always passes the absolute build root first, and no caller passes dot
segments. -/
def pathResolve (parts : List String) : String :=
  parts.foldl resolveStep ""

/-- Modelled from the spec: `FileManager.getMode` of `@kubb/core` (not among
the sources) derives the path mode from the configured output path — a path
whose last segment carries an extension names one fixed file (`single`,
"every output target for that plugin appends into one fixed file"),
otherwise output is split across files. -/
def getMode (p : String) : PathMode :=
  if (p.data.foldl (fun acc c => if c = '/' then [] else acc ++ [c]) []).contains '.' then
    .single
  else .split

/-- Capitalize the first character of a chunk. -/
def capitalize (s : String) : String :=
  match s.data with
  | [] => ""
  | c :: cs => String.mk (c.toUpper :: cs)

/-- Split a character list at every separator, keeping empty chunks, as
JavaScript's `String.prototype.split` does. -/
def splitChars (sep : Char → Bool) : List Char → List (List Char)
  | [] => [[]]
  | c :: rest =>
    let r := splitChars sep rest
    if sep c then [] :: r
    else
      match r with
      | w :: ws => (c :: w) :: ws
      | [] => [[c]]

/-- Modelled from the spec: `pascalCase` of `@kubb/core/transformers` (not
among the sources), the "configurable naming transform" — splits on common
word separators and capitalizes each chunk. -/
def pascalCase (s : String) : String :=
  String.join
    ((((splitChars (fun c => c = '-' || c = '_' || c = ' ' || c = '.') s.data).map
      String.mk).filter (· ≠ "")).map capitalize)

/-- JavaScript `ctx.group.split('/')[1]` rendered through template
interpolation: element 1 of the split when present, the string
`"undefined"` otherwise. -/
def jsSplitSecond (s : String) : String :=
  match ((splitChars (fun c => c = '/') s.data).map String.mk).get? 1 with
  | some seg => seg
  | none => "undefined"

/-- The default group-name function built by `resolvePath`
(`packages/plugin-angular/src/plugin.ts`, lines 38-47): for group type
`path` the second `split('/')` segment, for `tag` the pascal-cased tag with
`Service` appended.  (The source's final `camelCase` fallback is unreachable:
`Group['type']` is closed to `'tag' | 'path'`.) -/
def defaultGroupName (type : GroupType) (group : String) : String :=
  match type with
  | .path => jsSplitSecond group
  | .tag => pascalCase (group ++ "Service")

/-- The directory-name function applied to a group key: the caller-supplied
`group.name` when configured, otherwise the default of lines 38-47. -/
def groupDirName (g : GroupConfig) (key : String) : String :=
  match g.groupName with
  | some f => f key
  | none => defaultGroupName g.type key

/-- `resolvePath` of `packages/plugin-angular/src/plugin.ts` (lines 23-60).
JavaScript truthiness of the per-call group key is modelled by reading an
absent `path`/`tag` as the empty string (both are falsy in the source's
`options?.group?.path || options?.group?.tag` test and in the non-null
assertion that follows). -/
def resolvePath (config : PluginConfig) (options : AngularOptions) (baseName : String)
    (pathMode : Option PathMode) (callOptions : ResolvePathOptions) : String :=
  let root := pathResolve [config.root, config.outputPath]
  let mode := pathMode.getD (getMode (pathResolve [root, options.outputPath]))
  if mode = .single then
    pathResolve [root, options.outputPath]
  else
    match options.group with
    | some group =>
      let gpath := (callOptions.group.bind (·.path)).getD ""
      let gtag := (callOptions.group.bind (·.tag)).getD ""
      if gpath ≠ "" ∨ gtag ≠ "" then
        pathResolve [root, options.outputPath,
          groupDirName group (if group.type = .path then gpath else gtag), baseName]
      else pathResolve [root, options.outputPath, baseName]
    | none => pathResolve [root, options.outputPath, baseName]

/-- Whether a per-call option set carries `key` as its group key of the
selected group type, in the sense of the truthy test of line 35 and the
non-null access of line 53. -/
def carriesKey (t : GroupType) (o : ResolvePathOptions) (key : String) : Prop :=
  match t with
  | .path => (o.group.bind (·.path)).getD "" = key
  | .tag => (o.group.bind (·.tag)).getD "" = key

/-- Sample parser options used by concrete witnesses (version 3, no
coercion, no mapper). -/
def sampleOptions : ParserOptions :=
  ⟨"pet", none, none, none, [], none, none, .v3⟩

/-! Claim theorems. -/

theorem sort_perm (items : List Schema) : (sort items).Perm items :=
  List.perm_insertionSort _ _

/-- C1: for every list of sibling schema nodes, `sort` produces a permutation
of the input whose modifier classes are monotone: primary/format keyword
nodes come first, then bound-constraint nodes (`min`, `max`), then
`default`/`describe` nodes, and `optional`/`nullable`/`nullish` nodes come
last — the class order is the fixed system-wide canonical order, independent
of the input order. -/
theorem sort_orders_siblings_canonically (items : List Schema) :
    (sort items).Perm items ∧
    (sort items).Pairwise
      (fun a b => modifierClass a.keyword ≤ modifierClass b.keyword) := by
  refine ⟨sort_perm items, ?_⟩
  haveI : IsTotal Schema (fun a b => jsIndexOf order a.keyword ≤ jsIndexOf order b.keyword) :=
    ⟨fun a b => le_total _ _⟩
  haveI : IsTrans Schema (fun a b => jsIndexOf order a.keyword ≤ jsIndexOf order b.keyword) :=
    ⟨fun a b c hab hbc => le_trans hab hbc⟩
  have hs :=
    List.sorted_insertionSort
      (fun a b : Schema => jsIndexOf order a.keyword ≤ jsIndexOf order b.keyword) items
  exact hs.imp fun hab => by
    rw [modifierClass_eq_rankClass, modifierClass_eq_rankClass]
    exact rankClass_mono hab

/-- C2: a union with exactly one member parses to the same output as that
member parsed directly (with the original parent and sibling context), and a
union with zero members parses to the empty output, not a union wrapper and
not an error. -/
theorem union_collapse (parent : Option Schema) (a : Schema) (name : String)
    (siblings : List Schema) (options : ParserOptions) :
    parse parent (.union [a]) name siblings options = parse parent a name siblings options ∧
    parse parent (.union []) name siblings options = some "" := by
  constructor <;> simp [parse]

/-- C3: `parse` and `resolvePath` are deterministic pure functions — two
invocations with identical inputs produce identical outputs. -/
theorem resolution_deterministic (p p' : Option Schema) (c c' : Schema) (n n' : String)
    (s s' : List Schema) (o o' : ParserOptions)
    (cfg cfg' : PluginConfig) (ao ao' : AngularOptions) (b b' : String)
    (m m' : Option PathMode) (ro ro' : ResolvePathOptions)
    (h1 : p = p') (h2 : c = c') (h3 : n = n') (h4 : s = s') (h5 : o = o')
    (h6 : cfg = cfg') (h7 : ao = ao') (h8 : b = b') (h9 : m = m') (h10 : ro = ro') :
    parse p c n s o = parse p' c' n' s' o' ∧
    resolvePath cfg ao b m ro = resolvePath cfg' ao' b' m' ro' := by
  subst_vars
  exact ⟨rfl, rfl⟩

theorem resolution_deterministic_witness :
    parse none Schema.string "pet" [] sampleOptions =
      parse none Schema.string "pet" [] sampleOptions ∧
    resolvePath ⟨"/build", "gen"⟩ ⟨"services", none⟩ "pet.ts" (some .split) ⟨none⟩ =
      resolvePath ⟨"/build", "gen"⟩ ⟨"services", none⟩ "pet.ts" (some .split) ⟨none⟩ :=
  resolution_deterministic none none Schema.string Schema.string "pet" "pet" [] []
    sampleOptions sampleOptions ⟨"/build", "gen"⟩ ⟨"/build", "gen"⟩ ⟨"services", none⟩
    ⟨"services", none⟩ "pet.ts" "pet.ts" (some .split) (some .split) ⟨none⟩ ⟨none⟩
    rfl rfl rfl rfl rfl rfl rfl rfl rfl rfl

theorem resolveStep_empty_acc (p : String) : resolveStep "" p = p := by
  by_cases h : p = "" <;> simp [resolveStep, h]

theorem pathResolve_append_one (parts : List String) (b : String) :
    pathResolve (parts ++ [b]) = pathResolve [pathResolve parts, b] := by
  simp [pathResolve, List.foldl_append, resolveStep_empty_acc]

/-- C5: under directory-grouped mode with a group configured, any two
baseNames whose per-call options carry the same group key of the configured
type resolve below one shared directory, whose name is computed from the key
alone — the caller-supplied group-name function when given, otherwise the
pascal-cased tag followed by `Service` for group type `tag`, or the segment
after the first `/` of the operation path for group type `path`. -/
theorem grouped_mode_same_directory (config : PluginConfig) (options : AngularOptions)
    (g : GroupConfig) (b1 b2 : String) (o1 o2 : ResolvePathOptions) (key : String)
    (hg : options.group = some g) (hkey : key ≠ "")
    (hk1 : carriesKey g.type o1 key) (hk2 : carriesKey g.type o2 key) :
    resolvePath config options b1 (some .split) o1 =
      pathResolve [pathResolve [pathResolve [config.root, config.outputPath],
        options.outputPath, groupDirName g key], b1] ∧
    resolvePath config options b2 (some .split) o2 =
      pathResolve [pathResolve [pathResolve [config.root, config.outputPath],
        options.outputPath, groupDirName g key], b2] ∧
    (∀ f, g.groupName = some f → groupDirName g key = f key) ∧
    (g.groupName = none → g.type = .tag → groupDirName g key = pascalCase (key ++ "Service")) ∧
    (g.groupName = none → g.type = .path → groupDirName g key = jsSplitSecond key) := by
  have hres : ∀ (r o d : String) (b : String),
      pathResolve [r, o, d, b] = pathResolve [pathResolve [r, o, d], b] :=
    fun r o d b => pathResolve_append_one [r, o, d] b
  refine ⟨?_, ?_, ?_, ?_, ?_⟩
  · unfold resolvePath
    rw [hg]
    cases htype : g.type with
    | path =>
      unfold carriesKey at hk1
      rw [htype] at hk1
      simp only [htype, hk1]
      simp [hkey, ← hres]
    | tag =>
      unfold carriesKey at hk1
      rw [htype] at hk1
      simp only [htype, hk1]
      simp [hkey, ← hres]
  · unfold resolvePath
    rw [hg]
    cases htype : g.type with
    | path =>
      unfold carriesKey at hk2
      rw [htype] at hk2
      simp only [htype, hk2]
      simp [hkey, ← hres]
    | tag =>
      unfold carriesKey at hk2
      rw [htype] at hk2
      simp only [htype, hk2]
      simp [hkey, ← hres]
  · intro f hf
    simp [groupDirName, hf]
  · intro hf ht
    simp [groupDirName, hf, defaultGroupName, ht]
  · intro hf ht
    simp [groupDirName, hf, defaultGroupName, ht]

theorem grouped_mode_same_directory_witness :
    resolvePath ⟨"/build", "gen"⟩ ⟨"services", some ⟨.tag, none⟩⟩ "petService.ts"
      (some .split) ⟨some ⟨none, some "pets"⟩⟩ =
      "/build/gen/services/PetsService/petService.ts" ∧
    resolvePath ⟨"/build", "gen"⟩ ⟨"services", some ⟨.tag, none⟩⟩ "petController.ts"
      (some .split) ⟨some ⟨none, some "pets"⟩⟩ =
      "/build/gen/services/PetsService/petController.ts" := by
  have h :=
    grouped_mode_same_directory ⟨"/build", "gen"⟩ ⟨"services", some ⟨.tag, none⟩⟩ ⟨.tag, none⟩
      "petService.ts" "petController.ts" ⟨some ⟨none, some "pets"⟩⟩ ⟨some ⟨none, some "pets"⟩⟩
      "pets" rfl (by decide) (by simp [carriesKey]) (by simp [carriesKey])
  refine ⟨?_, ?_⟩
  · rw [h.1]
    decide
  · rw [h.2.1]
    decide

/-- C4: under path mode `single`, `resolvePath` returns the one fixed file —
the plugin's output path resolved against the build root — for every
`baseName` and every per-call option set. -/
theorem single_mode_one_file (config : PluginConfig) (options : AngularOptions)
    (b1 b2 : String) (o1 o2 : ResolvePathOptions) :
    resolvePath config options b1 (some .single) o1 =
      pathResolve [pathResolve [config.root, config.outputPath], options.outputPath] ∧
    resolvePath config options b1 (some .single) o1 =
      resolvePath config options b2 (some .single) o2 := by
  constructor <;> (unfold resolvePath; simp)

theorem constOutput_ne_empty (v : EnumItem) : constOutput v ≠ "" := by
  unfold constOutput zodKeywordMapper.const
  cases v with
  | mk f val =>
    cases f <;>
      (intro h
       have h2 := congrArg String.length h
       simp [String.length_append] at h2
       exact absurd h2.1.1 (by decide))

theorem jsFilterTruthy_map_some {α : Type} (f : α → String) (l : List α)
    (h : ∀ x ∈ l, f x ≠ "") :
    jsFilterTruthy (l.map fun x => some (f x)) = l.map f := by
  induction l with
  | nil => rfl
  | cons a t ih =>
    have ha : f a ≠ "" := h a (by simp)
    have ht : ∀ x ∈ t, f x ≠ "" := fun x hx => h x (by simp [hx])
    simp [jsFilterTruthy, List.filterMap_cons, ha] at ih ⊢
    exact ih ht

/-- C6: enum parsing has three modes — with `asConst` and exactly one member
it emits that member as a single constant literal; with `asConst` and more
than one member it emits a union of constant literals; without `asConst` it
emits one canonical enum expression over the serialized member values,
preserving member order. -/
theorem enum_three_modes (parent : Option Schema) (name : String) (siblings : List Schema)
    (options : ParserOptions) :
    (∀ v : EnumItem, parse parent (.enum true [v]) name siblings options =
      some (constOutput v)) ∧
    (∀ (v1 v2 : EnumItem) (vs : List EnumItem),
      parse parent (.enum true (v1 :: v2 :: vs)) name siblings options =
        some (zodKeywordMapper.union ((v1 :: v2 :: vs).map constOutput))) ∧
    (∀ items : List EnumItem, parse parent (.enum false items) name siblings options =
      some (zodKeywordMapper.enum (items.map fun i => stringifyValue i.value))) := by
  refine ⟨?_, ?_, ?_⟩
  · intro v
    simp [parse]
  · intro v1 v2 vs
    have hf := jsFilterTruthy_map_some constOutput (v1 :: v2 :: vs)
      fun x _ => constOutput_ne_empty x
    simp only [List.map] at hf
    simp [parse, hf]
  · intro items
    simp only [parse]
    congr 2
    exact List.map_congr_left fun a _ => by split_ifs <;> rfl

/-- C7: an intersection node parses to the combination of its resolved
members — the first member's output with one `.and(...)` application per
remaining member — and the combination of a single resolved member is that
member's output alone, with no intersection wrapper. -/
theorem intersection_unwraps_and_chains (parent : Option Schema) (args : List Schema)
    (name : String) (siblings : List Schema) (options : ParserOptions) :
    parse parent (.and args) name siblings options =
      some (andCombine (jsFilterTruthy ((andKept args).map fun s =>
        parse (some (.and args)) s name (andKept args) options))) ∧
    (∀ x : String, andCombine [x] = x) ∧
    (∀ (x y : String) (rest : List String), andCombine (x :: y :: rest) =
      x ++ String.join ((y :: rest).map fun i => ".and(" ++ i ++ ")")) := by
  refine ⟨?_, ?_, ?_⟩
  · simp [parse]
  · intro x
    show String.intercalate "," [x] ++ zodKeywordMapper.and [] = x
    rw [show String.intercalate "," [x] = x from rfl,
      show zodKeywordMapper.and [] = "" from rfl, String.append_empty]
  · intro x y rest
    show String.intercalate "," [x] ++ zodKeywordMapper.and (y :: rest) = _
    rw [show String.intercalate "," [x] = x from rfl]
    rfl

/-- C8: a schema node whose keyword has no mapping — absent from the keyword
mapper or mapped to an undefined handler (`firstName`, `readOnly`,
`deprecated`, `example`, ...) — parses to no output (`none`) and never to an
error, so unsupported constructs are silently skipped. -/
theorem unmapped_keyword_yields_none (parent : Option Schema) (current : Schema)
    (name : String) (siblings : List Schema) (options : ParserOptions)
    (h : mapperDefined current.keyword = false) :
    parse parent current name siblings options = none := by
  cases current
  all_goals try simp [mapperDefined, Schema.keyword] at h
  all_goals simp [parse]

theorem unmapped_keyword_yields_none_witness :
    mapperDefined (Schema.firstName).keyword = false ∧
    parse none Schema.firstName "pet" [] sampleOptions = none :=
  ⟨rfl, unmapped_keyword_yields_none none Schema.firstName "pet" [] sampleOptions rfl⟩

/-- C9: a reference node parses to its symbolic name only — wrapped in a
lazy thunk for version 3, the bare name for version 4 — and a reference node
without a (nonempty) name yields no output; the referenced schema's inline
structure never appears. -/
theorem ref_emits_symbolic_name (parent : Option Schema) (name : String)
    (siblings : List Schema) (options : ParserOptions) :
    parse parent (.ref none) name siblings options = none ∧
    parse parent (.ref (some "")) name siblings options = none ∧
    (∀ nm : String, nm ≠ "" →
      parse parent (.ref (some nm)) name siblings options =
        some (if options.version = .v4 then nm else "z.lazy(() => " ++ nm ++ ")")) := by
  refine ⟨?_, ?_, ?_⟩
  · simp [parse, zodKeywordMapper.ref]
  · simp [parse, zodKeywordMapper.ref]
  · intro nm hnm
    simp [parse, zodKeywordMapper.ref, hnm]

theorem ref_emits_symbolic_name_witness :
    parse none (.ref (some "pet")) "n" [] sampleOptions = some "z.lazy(() => pet)" := by
  rw [(ref_emits_symbolic_name none "n" [] sampleOptions).2.2 "pet" (by decide)]
  decide

/-- C10: an `optional` node parses to the empty string whenever a `default`
node is among its siblings — the optional modifier is suppressed by a
default value — and to `.optional()` exactly when no default sibling
exists. -/
theorem optional_suppressed_by_default_sibling (parent : Option Schema) (name : String)
    (siblings : List Schema) (options : ParserOptions) :
    (siblings.any (fun s => s.keyword == .default) = true →
      parse parent .optional name siblings options = some "") ∧
    (siblings.any (fun s => s.keyword == .default) = false →
      parse parent .optional name siblings options = some ".optional()") := by
  constructor <;> intro h <;> simp [parse, h, zodKeywordMapper.optional]

theorem optional_suppressed_by_default_sibling_witness :
    parse none .optional "pet" [Schema.string, .default (.num 5), .optional] sampleOptions =
      some "" ∧
    parse none .optional "pet" [Schema.string, .optional] sampleOptions =
      some ".optional()" := by
  constructor
  · exact (optional_suppressed_by_default_sibling none "pet"
      [Schema.string, .default (.num 5), .optional] sampleOptions).1 (by decide)
  · exact (optional_suppressed_by_default_sibling none "pet"
      [Schema.string, .optional] sampleOptions).2 (by decide)

end Kubb
